import Mathlib

/-!
Verification of the real-time leaderboard system (players, rank queries,
game sessions, socket channels, rate limiting) against its specification.

The JavaScript sources are shallowly embedded: Mongoose documents become
structures, the database becomes a `List` of documents, query helpers and
route handlers become pure functions, and `Date.now()` timestamps become
explicit `ℕ` millisecond arguments.  JavaScript numbers are modelled as
exact integers (`ℤ`) and exact rationals (`ℚ`) where the code divides;
`Math.round` / `Math.ceil` become `jsRound` / `Int.ceil`.
-/

namespace Leaderboard

/-- Math.round for JavaScript: round half towards positive infinity. -/
def jsRound (q : ℚ) : ℤ := ⌊q + 1 / 2⌋

/-- Region enum of playerSchema (part_006 line 31). -/
inductive Region
  | NA | EU | ASIA | SA | OCE | GLOBAL
deriving DecidableEq, Repr, Fintype

/-- String code of a region, as stored in the database. -/
def Region.code : Region → String
  | .NA => "NA"
  | .EU => "EU"
  | .ASIA => "ASIA"
  | .SA => "SA"
  | .OCE => "OCE"
  | .GLOBAL => "GLOBAL"

/-- Game-mode enum of playerSchema (part_006 line 58). -/
inductive GameMode
  | classic | blitz | survival | team | ranked
deriving DecidableEq, Repr, Fintype

/-- String code of a game mode, as stored in the database. -/
def GameMode.code : GameMode → String
  | .classic => "classic"
  | .blitz => "blitz"
  | .survival => "survival"
  | .team => "team"
  | .ranked => "ranked"

/-- Player document (playerSchema, part_006 lines 4-91).  Fields that no
claim touches (email, profilePicture, achievements, gameStats, createdAt)
are omitted; timestamps are milliseconds since the epoch. -/
structure Player where
  playerId : String
  username : String
  region : Region
  currentScore : ℤ
  totalGamesPlayed : ℕ
  averageScore : ℤ
  bestScore : ℤ
  currentGameMode : GameMode
  isOnline : Bool
  lastActiveAt : ℕ
deriving DecidableEq, Repr

/-- Pre-save middleware of playerSchema (part_006 lines 106-119): when
totalGamesPlayed is positive, recompute averageScore as
Math.round(currentScore / Math.max(totalGamesPlayed, 1)); then raise
bestScore to currentScore when the latter is larger. -/
def playerPreSave (p : Player) : Player :=
  let p1 :=
    if 0 < p.totalGamesPlayed then
      { p with averageScore :=
          jsRound ((p.currentScore : ℚ) / max (p.totalGamesPlayed : ℚ) 1) }
    else p
  if p1.bestScore < p1.currentScore then { p1 with bestScore := p1.currentScore } else p1

/-- Document save: Mongoose runs the pre('save') middleware and persists the
result. -/
def savePlayer (p : Player) : Player := playerPreSave p

/-- playerSchema.statics.updatePlayerScore (part_006 lines 175-191) applied
to the matched document: findOneAndUpdate sets currentScore and
lastActiveAt, increments totalGamesPlayed, and sets currentGameMode when one
is given.  findOneAndUpdate applies the update operators directly in the
store and does not run the pre('save') document middleware, so bestScore and
averageScore are left untouched here. -/
def updatePlayerScoreDoc (p : Player) (newScore : ℤ) (gameMode : Option GameMode)
    (now : ℕ) : Player :=
  let p1 := { p with
    currentScore := newScore
    lastActiveAt := now
    totalGamesPlayed := p.totalGamesPlayed + 1 }
  match gameMode with
  | some gm => { p1 with currentGameMode := gm }
  | none => p1

/-- Database lookup by playerId: findOne returns the first matching
document. -/
def findPlayer (pid : String) (db : List Player) : Option Player :=
  db.find? (fun q => q.playerId = pid)

/-- playerSchema.statics.updatePlayerScore at the database level:
findOneAndUpdate updates the first document whose playerId matches and
returns (with the option new:true) the updated document, or none when no
document matches. -/
def updatePlayerScoreDb (pid : String) (newScore : ℤ) (gameMode : Option GameMode)
    (now : ℕ) : List Player → Option Player × List Player
  | [] => (none, [])
  | q :: qs =>
    if q.playerId = pid then
      (some (updatePlayerScoreDoc q newScore gameMode now),
       updatePlayerScoreDoc q newScore gameMode now :: qs)
    else
      let r := updatePlayerScoreDb pid newScore gameMode now qs
      (r.1, q :: r.2)

/-- Region part of the match conditions built by getLeaderboard and
getPlayerRank (part_006 lines 133-135 and 163-165): a region value is only
added to the query when it is present and differs from GLOBAL. -/
def regionCond (region : Option Region) (q : Player) : Bool :=
  match region with
  | some r => if r = Region.GLOBAL then true else q.region = r
  | none => true

/-- Game-mode part of the match conditions (part_006 lines 137-139 and
167-169). -/
def gameModeCond (gameMode : Option GameMode) (q : Player) : Bool :=
  match gameMode with
  | some g => q.currentGameMode = g
  | none => true

/-- playerSchema.statics.getPlayerRank (part_006 lines 153-173): look up the
target by playerId, count the documents with a strictly greater currentScore
under the (region, gameMode) conditions, and return that count plus one. -/
def getPlayerRank (db : List Player) (pid : String) (region : Option Region)
    (gameMode : Option GameMode) : Option ℕ :=
  match findPlayer pid db with
  | none => none
  | some player =>
    some ((db.filter (fun q =>
      decide (player.currentScore < q.currentScore) &&
      regionCond region q && gameModeCond gameMode q)).length + 1)

/-- Full match condition of getLeaderboard (part_006 lines 131-143). -/
def leaderboardMatches (region : Option Region) (gameMode : Option GameMode)
    (onlineOnly : Bool) (q : Player) : Bool :=
  regionCond region q && gameModeCond gameMode q && (if onlineOnly then q.isOnline else true)

/-- Sort order of getLeaderboard (part_006 line 146): currentScore
descending, then lastActiveAt descending. -/
def lbOrder (a b : Player) : Prop :=
  b.currentScore < a.currentScore ∨
    (a.currentScore = b.currentScore ∧ b.lastActiveAt ≤ a.lastActiveAt)

instance : DecidableRel lbOrder := fun a b => by unfold lbOrder; infer_instance

/-- playerSchema.statics.getLeaderboard (part_006 lines 122-151): filter,
sort by score then recency (both descending), then apply skip and limit
(MongoDB applies skip before limit).  The field projection of select() is
omitted.  insertionSort is stable, like MongoDB's sort on equal keys here. -/
def getLeaderboard (db : List Player) (limit skip : ℕ) (region : Option Region)
    (gameMode : Option GameMode) (onlineOnly : Bool) : List Player :=
  (((db.filter (leaderboardMatches region gameMode onlineOnly)).insertionSort
      lbOrder).drop skip).take limit

/-- Session lifecycle status (gameSessionSchema, part_006 line 261). -/
inductive SessionStatus
  | waiting | active | completed | abandoned
deriving DecidableEq, Repr

/-- Participant entry of a game session (gameSessionSchema.players, part_006
lines 226-246). -/
structure SessionPlayer where
  playerId : String
  username : String
  initialScore : ℤ
  currentSessionScore : ℤ
  position : Option ℕ
  isActive : Bool
deriving DecidableEq, Repr

/-- Event kinds of the realTimeEvents log (part_006 line 300).  The kind
achievement never occurs in the sources but belongs to the enum. -/
inductive EventType
  | score_update | player_joined | player_left | game_start | game_end | achievement
deriving DecidableEq, Repr

/-- Payloads actually pushed into realTimeEvents by the session statics and
methods (the schema type is Mixed). -/
inductive EventData
  | joined (username : String)
  | gameStart (playerCount : ℕ)
  | score (newScore delta : ℤ) (reason : String)
  | left (reason : String)
  | gameEnd (finalScores : List (String × String × ℤ × Option ℕ))
deriving DecidableEq, Repr

/-- Entry of the append-only realTimeEvents log (part_006 lines 292-303).
The entry timestamp defaults to Date.now and no claim reads it, so it is
omitted. -/
structure SessionEvent where
  playerId : Option String
  eventType : EventType
  data : EventData
deriving DecidableEq, Repr

/-- Game-session document (gameSessionSchema, part_006 lines 218-312).
gameSettings and metadata are carried by no claim and omitted; timestamps
are milliseconds. -/
structure GameSession where
  sessionId : String
  players : List SessionPlayer
  gameMode : GameMode
  region : Region
  status : SessionStatus
  maxPlayers : ℕ
  startedAt : Option ℕ
  endedAt : Option ℕ
  duration : Option ℕ
  realTimeEvents : List SessionEvent
deriving DecidableEq, Repr

/-- Pre-save middleware of gameSessionSchema (part_006 lines 338-346): when
the session is completed, startedAt is set and duration is still null, set
duration to Math.round((Date.now() - startedAt) / 1000) and endedAt to the
current time.  Every modelled session write ends with this hook, like every
Mongoose save. -/
def sessionPreSave (s : GameSession) (now : ℕ) : GameSession :=
  if s.status = SessionStatus.completed ∧ s.startedAt.isSome ∧ s.duration = none then
    { s with duration := some ((now - s.startedAt.getD 0 + 500) / 1000),
             endedAt := some now }
  else s

/-- Payload of a join request (part_006 lines 361-386): playerData carries
playerId, username and optionally the player's current global score. -/
structure JoinPlayerData where
  playerId : String
  username : String
  currentScore : Option ℤ
deriving DecidableEq, Repr

/-- Errors thrown by joinSession (part_006 lines 367-373). -/
inductive SessionError
  | notJoinable | full
deriving DecidableEq, Repr

/-- gameSessionSchema.statics.joinSession (part_006 lines 361-407).  The
findOne query only matches sessions whose status is waiting or active;  a
full session is rejected next;  only then is an already-present player
detected and the unchanged session returned;  otherwise the participant and
a player_joined event are appended, and crossing the 2-participant
threshold while waiting activates the session and appends a game_start
event. -/
def joinSession (s : GameSession) (pd : JoinPlayerData) (now : ℕ) :
    Except SessionError GameSession :=
  if ¬ (s.status = SessionStatus.waiting ∨ s.status = SessionStatus.active) then
    Except.error SessionError.notJoinable
  else if s.maxPlayers ≤ s.players.length then
    Except.error SessionError.full
  else if (s.players.find? (fun p => p.playerId = pd.playerId)).isSome then
    Except.ok s
  else
    let s1 := { s with
      players := s.players ++
        [{ playerId := pd.playerId, username := pd.username,
           initialScore := pd.currentScore.getD 0, currentSessionScore := 0,
           position := none, isActive := true }]
      realTimeEvents := s.realTimeEvents ++
        [{ playerId := some pd.playerId, eventType := EventType.player_joined,
           data := EventData.joined pd.username }] }
    let s2 :=
      if 2 ≤ s1.players.length ∧ s1.status = SessionStatus.waiting then
        { s1 with
          status := SessionStatus.active
          startedAt := some now
          realTimeEvents := s1.realTimeEvents ++
            [{ playerId := none, eventType := EventType.game_start,
               data := EventData.gameStart s1.players.length }] }
      else s1
    Except.ok (sessionPreSave s2 now)

/-- First-match update of a participant's in-session score, as done by the
findIndex / assignment pair in updatePlayerScore (part_006 lines 420-426). -/
def setSessionScore (pid : String) (score : ℤ) : List SessionPlayer → List SessionPlayer
  | [] => []
  | p :: ps =>
    if p.playerId = pid then { p with currentSessionScore := score } :: ps
    else p :: setSessionScore pid score ps

/-- gameSessionSchema.statics.updatePlayerScore (part_006 lines 409-440):
the findOne query requires an active session containing the player;  the
participant's in-session score is overwritten and a score_update event
appended. -/
def updateSessionScore (s : GameSession) (pid : String) (score : ℤ)
    (delta : Option ℤ) (reason : Option String) (now : ℕ) : Option GameSession :=
  if s.status = SessionStatus.active ∧ s.players.any (fun p => p.playerId = pid) then
    some (sessionPreSave
      { s with
        players := setSessionScore pid score s.players
        realTimeEvents := s.realTimeEvents ++
          [{ playerId := some pid, eventType := EventType.score_update,
             data := EventData.score score (delta.getD 0)
               (reason.getD "score_update") }] } now)
  else none

/-- Descending in-session-score order used by endSession's sort comparator
(part_006 lines 456-458). -/
def scoreDesc (a b : SessionPlayer) : Prop :=
  b.currentSessionScore ≤ a.currentSessionScore

instance : DecidableRel scoreDesc := fun a b => by unfold scoreDesc; infer_instance

instance : IsTotal SessionPlayer scoreDesc :=
  ⟨fun a b => le_total b.currentSessionScore a.currentSessionScore⟩

instance : IsTrans SessionPlayer scoreDesc :=
  ⟨fun _ _ _ hab hbc => le_trans hbc hab⟩

instance : IsRefl SessionPlayer scoreDesc := ⟨fun a => le_refl a.currentSessionScore⟩

/-- Assignment to the first participant whose playerId matches, as done by
findIndex / position assignment inside endSession (part_006 lines 460-463). -/
def setPosition (pid : String) (pos : ℕ) : List SessionPlayer → List SessionPlayer
  | [] => []
  | p :: ps =>
    if p.playerId = pid then { p with position := some pos } :: ps
    else p :: setPosition pid pos ps

/-- The forEach loop of endSession (part_006 lines 460-463): walk the sorted
copy with its index and write index + 1 into the matching original entry. -/
def assignPositions (k : ℕ) (sorted players : List SessionPlayer) : List SessionPlayer :=
  match sorted with
  | [] => players
  | p :: rest => assignPositions (k + 1) rest (setPosition p.playerId (k + 1) players)

/-- gameSessionSchema.statics.endSession (part_006 lines 442-478): only an
active session is found;  status becomes completed and endedAt is set;  a
sorted copy of the participants (all of them, active or not) determines the
positions;  a game_end event carrying the final scoreboard is appended; the
pre-save hook then fills in duration.  JavaScript's Array.sort is stable, as
is insertionSort with the non-strict comparator. -/
def endSession (s : GameSession) (now : ℕ) : Option GameSession :=
  if s.status = SessionStatus.active then
    let sorted := s.players.insertionSort scoreDesc
    let players := assignPositions 0 sorted s.players
    some (sessionPreSave
      { s with
        status := SessionStatus.completed
        endedAt := some now
        players := players
        realTimeEvents := s.realTimeEvents ++
          [{ playerId := none, eventType := EventType.game_end,
             data := EventData.gameEnd (players.map (fun p =>
               (p.playerId, p.username, p.currentSessionScore, p.position))) }] } now)
  else none

/-- First-match deactivation of a participant, as done by findIndex /
isActive assignment in removePlayer (part_006 lines 509-512). -/
def markInactive (pid : String) : List SessionPlayer → List SessionPlayer
  | [] => []
  | p :: ps =>
    if p.playerId = pid then { p with isActive := false } :: ps
    else p :: markInactive pid ps

/-- gameSessionSchema.methods.removePlayer (part_006 lines 508-529): it
carries no status guard.  When the player is found it is marked inactive, a
player_left event is appended, and if no active participant remains the
status becomes abandoned and endedAt is re-set;  the document is saved
either way. -/
def removePlayer (s : GameSession) (pid : String) (now : ℕ) : GameSession :=
  if (s.players.find? (fun p => p.playerId = pid)).isSome then
    let s1 := { s with
      players := markInactive pid s.players
      realTimeEvents := s.realTimeEvents ++
        [{ playerId := some pid, eventType := EventType.player_left,
           data := EventData.left "disconnected" }] }
    let s2 :=
      if (s1.players.filter (fun p => p.isActive)).length = 0 then
        { s1 with status := SessionStatus.abandoned, endedAt := some now }
      else s1
    sessionPreSave s2 now
  else sessionPreSave s now

/-- calculatePositionBonus (part_003 lines 577-583): zero for fewer than two
participants, otherwise Math.round(100 * (totalPlayers - position + 1) /
totalPlayers).  The float arithmetic is modelled as exact rationals. -/
def calculatePositionBonus (position totalPlayers : ℕ) : ℤ :=
  if totalPlayers < 2 then 0
  else jsRound (100 * (((totalPlayers : ℚ) - (position : ℚ) + 1) / (totalPlayers : ℚ)))

/-- Modelled from the spec: the positional-bonus formula as the claim states
it, round(100 * (totalPlayers - position + 1) / totalPlayers), and 0
whenever the session has fewer than 2 participants. -/
def specPositionBonus (position totalPlayers : ℕ) : ℤ :=
  if totalPlayers < 2 then 0
  else jsRound ((100 * ((totalPlayers : ℚ) - (position : ℚ) + 1)) / (totalPlayers : ℚ))

/-- Write-back loop of the POST /api/sessions/:sessionId/end handler
(part_003 lines 313-323): for every participant still active, write its
in-session score plus the positional bonus to the durable player record
through Player.updatePlayerScore.  totalPlayers is
endedSession.players.length. -/
def endRouteWriteBack (sessionPlayers : List SessionPlayer) (totalPlayers : ℕ)
    (gameMode : GameMode) (db : List Player) (now : ℕ) : List Player :=
  sessionPlayers.foldl (fun acc p =>
    if p.isActive then
      (updatePlayerScoreDb p.playerId
        (p.currentSessionScore + calculatePositionBonus (p.position.getD 0) totalPlayers)
        (some gameMode) now acc).2
    else acc) db

/-- Result record of validateScoreUpdateRate (part_003 of validation.js,
lines 256-272). -/
structure RateCheckResult where
  allowed : Bool
  remaining : ℕ
  resetTime : ℤ
deriving DecidableEq, Repr

/-- validateScoreUpdateRate (src/middleware/validation.js lines 242-273) for
one player: the first component of the result is the returned record, the
second the player's entry of the scoreUpdateRateLimit map after the call.
Timestamps strictly older than 60 seconds are pruned;  with the cap reached
the attempt is rejected with the seconds until the oldest kept timestamp
ages out (Math.ceil);  otherwise the current time is recorded. -/
def validateScoreUpdateRate (recorded : List ℕ) (now : ℕ)
    (maxUpdatesPerMinute : ℕ) : RateCheckResult × List ℕ :=
  let recentUpdates := recorded.filter (fun (t : ℕ) => decide ((now : ℤ) - 60000 < (t : ℤ)))
  if maxUpdatesPerMinute ≤ recentUpdates.length then
    ({ allowed := false, remaining := 0,
       resetTime := ⌈(((recentUpdates.headD 0 : ℕ) : ℚ) + 60000 - (now : ℚ)) / 1000⌉ },
     recentUpdates)
  else
    ({ allowed := true, remaining := maxUpdatesPerMinute - (recentUpdates.length + 1),
       resetTime := 60 },
     recentUpdates ++ [now])

/-- Iterate validateScoreUpdateRate over a sequence of attempt times for one
player, threading the stored timestamp list and collecting each attempt's
allowed flag. -/
def runRateLimiter (maxPerMinute : ℕ) (recorded : List ℕ) :
    List ℕ → List Bool × List ℕ
  | [] => ([], recorded)
  | t :: ts =>
    let step := validateScoreUpdateRate recorded t maxPerMinute
    let rest := runRateLimiter maxPerMinute step.2 ts
    (step.1.allowed :: rest.1, rest.2)

/-- Modelled from the spec: an attempt at time t is rejected exactly when
maxPerMinute or more previously accepted attempts lie within the trailing
60-second window, and accepted attempts are the only ones counted. -/
def specRateDecisions (maxPerMinute : ℕ) (accepted : List ℕ) :
    List ℕ → List Bool
  | [] => []
  | t :: ts =>
    if maxPerMinute ≤ (accepted.filter
        (fun (u : ℕ) => decide ((t : ℤ) - 60000 < (u : ℤ)))).length then
      false :: specRateDecisions maxPerMinute accepted ts
    else
      true :: specRateDecisions maxPerMinute (accepted ++ [t]) ts

/-- SocketService.generateRoomNames (part_005 lines 494-510): always the
global room;  the region room when a region is given and is not GLOBAL;
the game-mode room when a mode is given;  and the combined room when both
conditions hold. -/
def generateRoomNames (region : Option Region) (gameMode : Option GameMode) :
    List String :=
  let rooms := ["global"]
  let rooms :=
    match region with
    | some r => if r ≠ Region.GLOBAL then rooms ++ ["region:" ++ r.code] else rooms
    | none => rooms
  match gameMode with
  | some g =>
    let rooms := rooms ++ ["gamemode:" ++ g.code]
    match region with
    | some r =>
      if r ≠ Region.GLOBAL then
        rooms ++ ["region:" ++ r.code ++ ":gamemode:" ++ g.code]
      else rooms
    | none => rooms
  | none => rooms

/-- Room set joined by SocketService.handlePlayerJoin (part_005 lines
110-117): generateRoomNames applied to the payload's region and game mode,
each defaulted to the player document's value when absent. -/
def handleJoinRooms (dataRegion : Option Region) (dataGameMode : Option GameMode)
    (p : Player) : List String :=
  generateRoomNames (some (dataRegion.getD p.region))
    (some (dataGameMode.getD p.currentGameMode))

/-- SocketService.handleLeaderboardUnsubscription (part_005 lines 374-397)
on the subscription set: every room of generateRoomNames(region, gameMode)
is deleted from the current set. -/
def unsubscribeRooms (current : List String) (region : Option Region)
    (gameMode : Option GameMode) : List String :=
  current.filter (fun room => room ∉ generateRoomNames region gameMode)

/-- Outcomes of the live score-update handler that the rate-limit claim
distinguishes (part_005 lines 150-272). -/
inductive ScoreUpdateOutcome
  | rateLimited (resetTime : ℤ)
  | unauthorized
  | sessionError
  | updateFailed
  | success
deriving DecidableEq, Repr

/-- SocketService.handleScoreUpdate (part_005 lines 150-272) restricted to
its control flow over the target player's rate-limit entry: after payload
validation the rate check runs first (recording the attempt when allowed),
then the connection-ownership check, then the store writes;  sessionFails
models GameSession.updatePlayerScore throwing, targetExists models
Player.updatePlayerScore finding the player.  No path restores the
rate-limit entry.  The emitted events and broadcasts are omitted. -/
def handleScoreUpdate (recorded : List ℕ) (now : ℕ) (socketOwner : Option String)
    (playerId : String) (sessionId : Option String) (sessionFails : Bool)
    (targetExists : Bool) : ScoreUpdateOutcome × List ℕ :=
  let rate := validateScoreUpdateRate recorded now 60
  if rate.1.allowed = false then (ScoreUpdateOutcome.rateLimited rate.1.resetTime, rate.2)
  else if socketOwner ≠ some playerId then (ScoreUpdateOutcome.unauthorized, rate.2)
  else if sessionId.isSome ∧ sessionFails then (ScoreUpdateOutcome.sessionError, rate.2)
  else if targetExists = false then (ScoreUpdateOutcome.updateFailed, rate.2)
  else (ScoreUpdateOutcome.success, rate.2)

/-! ## C8 -/

/-- C8: membership in the generated channel set is exactly the spec's
four-part description;  the set joined by the join handshake is the
generator applied to the payload values defaulted to the player document's
region and game mode;  and unsubscribing with the same arguments removes
every generated channel. -/
theorem C8_join_channels_match_generator (region dataRegion : Option Region)
    (gameMode dataGameMode : Option GameMode) (p : Player) :
    (∀ x, x ∈ generateRoomNames region gameMode ↔
      (x = "global" ∨
       (∃ r, region = some r ∧ r ≠ Region.GLOBAL ∧ x = "region:" ++ r.code) ∨
       (∃ g, gameMode = some g ∧ x = "gamemode:" ++ g.code) ∨
       (∃ r g, region = some r ∧ r ≠ Region.GLOBAL ∧ gameMode = some g ∧
         x = "region:" ++ r.code ++ ":gamemode:" ++ g.code))) ∧
    handleJoinRooms dataRegion dataGameMode p
      = generateRoomNames (some (dataRegion.getD p.region))
          (some (dataGameMode.getD p.currentGameMode)) ∧
    unsubscribeRooms (generateRoomNames region gameMode) region gameMode = [] := by
  refine ⟨?_, rfl, ?_⟩
  · intro x
    cases region with
    | none =>
      cases gameMode with
      | none => simp [generateRoomNames]
      | some g => simp [generateRoomNames]
    | some r =>
      by_cases hr : r = Region.GLOBAL
      · subst hr
        cases gameMode with
        | none => simp [generateRoomNames]
        | some g => simp [generateRoomNames]
      · cases gameMode with
        | none => simp [generateRoomNames, hr]
        | some g => simp [generateRoomNames, hr]
  · unfold unsubscribeRooms
    rw [List.filter_eq_nil_iff]
    intro a ha
    simp [ha]

/-! ## C10 -/

/-- C10: whenever the trailing-window count lets the rate check pass, the
attempt's timestamp is recorded in the target player's rate-limit entry on
every subsequent path of the live score-update handler — in particular on
the unauthorized path and the nonexistent-player path — and no path removes
it again. -/
theorem C10_rate_slot_consumed_before_ownership (recorded : List ℕ) (now : ℕ)
    (owner : Option String) (pid : String) (sessionId : Option String)
    (sessionFails targetExists : Bool)
    (hallow : (recorded.filter
        (fun (t : ℕ) => decide ((now : ℤ) - 60000 < (t : ℤ)))).length < 60) :
    (handleScoreUpdate recorded now owner pid sessionId sessionFails
        targetExists).2
      = recorded.filter (fun (t : ℕ) => decide ((now : ℤ) - 60000 < (t : ℤ)))
          ++ [now] ∧
    (owner ≠ some pid →
      (handleScoreUpdate recorded now owner pid sessionId sessionFails
          targetExists).1 = ScoreUpdateOutcome.unauthorized) ∧
    (owner = some pid → sessionId = none → targetExists = false →
      (handleScoreUpdate recorded now owner pid sessionId sessionFails
          targetExists).1 = ScoreUpdateOutcome.updateFailed) := by
  have hrate : validateScoreUpdateRate recorded now 60
      = ({ allowed := true,
           remaining := 60 - ((recorded.filter
             (fun (t : ℕ) => decide ((now : ℤ) - 60000 < (t : ℤ)))).length + 1),
           resetTime := 60 },
         recorded.filter (fun (t : ℕ) => decide ((now : ℤ) - 60000 < (t : ℤ)))
           ++ [now]) := by
    unfold validateScoreUpdateRate
    rw [if_neg (by omega)]
  unfold handleScoreUpdate
  rw [hrate]
  refine ⟨?_, ?_, ?_⟩
  · dsimp only
    rw [if_neg (by simp)]
    split
    · rfl
    · split
      · rfl
      · split <;> rfl
  · intro howner
    dsimp only
    rw [if_neg (by simp), if_pos howner]
  · intro howner hsid hex
    dsimp only
    rw [if_neg (by simp), if_neg (by simp [howner]), if_neg (by simp [hsid]),
      if_pos hex]

/-- Witness for C10: with an empty rate-limit entry, a score update from a
socket bound to a different player is rejected as unauthorized yet leaves
the attempt's timestamp recorded. -/
theorem C10_rate_slot_consumed_before_ownership_witness :
    (handleScoreUpdate [] 5 (some "x") "y" none false true).2 = [5] ∧
    (handleScoreUpdate [] 5 (some "x") "y" none false true).1
      = ScoreUpdateOutcome.unauthorized := by
  have h := C10_rate_slot_consumed_before_ownership [] 5 (some "x") "y" none
    false true (by decide)
  exact ⟨by simpa using h.1, h.2.1 (by decide)⟩

/-! ## C7 -/

/-- Composing two window filters with a later reference time keeps only the
later window: pruning at time last and then at time t ≥ last equals pruning
at t alone. -/
theorem filter_window_filter (acc : List ℕ) (last t : ℕ) (hle : last ≤ t) :
    (acc.filter (fun (u : ℕ) => decide ((last : ℤ) - 60000 < (u : ℤ)))).filter
        (fun (u : ℕ) => decide ((t : ℤ) - 60000 < (u : ℤ)))
      = acc.filter (fun (u : ℕ) => decide ((t : ℤ) - 60000 < (u : ℤ))) := by
  rw [List.filter_filter]
  apply List.filter_congr
  intro u _
  by_cases h : (t : ℤ) - 60000 < (u : ℤ)
  · have h' : (last : ℤ) - 60000 < (u : ℤ) := by omega
    simp [h, h']
  · simp [h]

/-- Invariant of the rate limiter: when the stored list is exactly the
previously accepted timestamps still inside the window of the last seen
time, the limiter's decisions over any later, nondecreasing attempt
sequence coincide with the spec model's decisions. -/
theorem runRateLimiter_eq_spec (m : ℕ) (ts : List ℕ) :
    ∀ (acc : List ℕ) (last : ℕ),
      (∀ u ∈ acc, u ≤ last) →
      (∀ t ∈ ts, last ≤ t) →
      List.Sorted (· ≤ ·) ts →
      (runRateLimiter m
          (acc.filter (fun (u : ℕ) => decide ((last : ℤ) - 60000 < (u : ℤ)))) ts).1
        = specRateDecisions m acc ts := by
  induction ts with
  | nil => intro acc last _ _ _; rfl
  | cons t ts ih =>
    intro acc last hacc hge hsorted
    have hlast_t : last ≤ t := hge t (List.mem_cons_self t ts)
    have hsplit := List.sorted_cons.mp hsorted
    have hrecent := filter_window_filter acc last t hlast_t
    by_cases hm : m ≤ (acc.filter
        (fun (u : ℕ) => decide ((t : ℤ) - 60000 < (u : ℤ)))).length
    · have hkey : (validateScoreUpdateRate
            (acc.filter (fun (u : ℕ) => decide ((last : ℤ) - 60000 < (u : ℤ)))) t m).1.allowed
              = false ∧
          (validateScoreUpdateRate
            (acc.filter (fun (u : ℕ) => decide ((last : ℤ) - 60000 < (u : ℤ)))) t m).2
              = acc.filter (fun (u : ℕ) => decide ((t : ℤ) - 60000 < (u : ℤ))) := by
        unfold validateScoreUpdateRate
        dsimp only
        rw [hrecent, if_pos hm]
        exact ⟨rfl, rfl⟩
      dsimp only [runRateLimiter, specRateDecisions]
      rw [hkey.1, hkey.2, if_pos hm]
      exact congrArg (List.cons false)
        (ih acc t (fun u hu => le_trans (hacc u hu) hlast_t) hsplit.1 hsplit.2)
    · have hsingle : [t].filter (fun (u : ℕ) => decide ((t : ℤ) - 60000 < (u : ℤ)))
          = [t] := by
        simp only [List.filter_cons, List.filter_nil]
        rw [if_pos (decide_eq_true (by omega))]
      have hkey : (validateScoreUpdateRate
            (acc.filter (fun (u : ℕ) => decide ((last : ℤ) - 60000 < (u : ℤ)))) t m).1.allowed
              = true ∧
          (validateScoreUpdateRate
            (acc.filter (fun (u : ℕ) => decide ((last : ℤ) - 60000 < (u : ℤ)))) t m).2
              = (acc ++ [t]).filter
                  (fun (u : ℕ) => decide ((t : ℤ) - 60000 < (u : ℤ))) := by
        unfold validateScoreUpdateRate
        dsimp only
        rw [hrecent, if_neg hm, List.filter_append, hsingle]
        exact ⟨rfl, rfl⟩
      dsimp only [runRateLimiter, specRateDecisions]
      rw [hkey.1, hkey.2, if_neg hm]
      refine congrArg (List.cons true) (ih (acc ++ [t]) t ?_ hsplit.1 hsplit.2)
      intro u hu
      rcases List.mem_append.mp hu with h | h
      · exact le_trans (hacc u h) hlast_t
      · rw [List.mem_singleton.mp h]

/-- C7: over any nondecreasing attempt sequence with the cap of 60 updates
per minute, the limiter starting from an empty entry accepts and rejects
exactly as the spec model does: an attempt is rejected precisely when 60 or
more previously accepted attempts lie within its trailing 60-second window,
so the 61st attempt inside such a window is rejected and the first attempt
after the oldest timestamp ages out is accepted again. -/
theorem C7_rate_limiter_refines_spec (attempts : List ℕ)
    (hmono : attempts.Sorted (· ≤ ·)) :
    (runRateLimiter 60 [] attempts).1 = specRateDecisions 60 [] attempts := by
  have h := runRateLimiter_eq_spec 60 attempts [] 0 (fun u hu => by cases hu)
    (fun t _ => Nat.zero_le t) hmono
  simpa using h

/-- Fixture for the C7 witness: 61 attempts at time 1000, one at 30000 while
the window is still saturated, one at 61001 after every prior timestamp aged
out. -/
def c7Attempts : List ℕ := List.replicate 61 1000 ++ [30000, 61001]

/-- Witness for C7: the limiter accepts the first 60 attempts, rejects the
61st and the saturated retry at 30000, and accepts again at 61001. -/
theorem C7_rate_limiter_refines_spec_witness :
    List.Sorted (· ≤ ·) c7Attempts ∧
    (runRateLimiter 60 [] c7Attempts).1 = specRateDecisions 60 [] c7Attempts ∧
    (runRateLimiter 60 [] c7Attempts).1
      = List.replicate 60 true ++ [false, false, true] := by
  have hs : List.Sorted (· ≤ ·) c7Attempts := by decide
  exact ⟨hs, C7_rate_limiter_refines_spec c7Attempts hs, by decide⟩

/-! ## Helper lemmas -/

/-- Saving never changes a session's status: the pre-save hook only fills in
duration and endedAt. -/
theorem sessionPreSave_status (s : GameSession) (now : ℕ) :
    (sessionPreSave s now).status = s.status := by
  unfold sessionPreSave
  split <;> rfl

/-- Saving never changes a session's participant list. -/
theorem sessionPreSave_players (s : GameSession) (now : ℕ) :
    (sessionPreSave s now).players = s.players := by
  unfold sessionPreSave
  split <;> rfl

instance : DecidableEq (Except SessionError GameSession) := fun a b =>
  match a, b with
  | Except.error e₁, Except.error e₂ =>
    if h : e₁ = e₂ then isTrue (by rw [h])
    else isFalse (by intro hc; cases hc; exact h rfl)
  | Except.error _, Except.ok _ => isFalse (by intro hc; cases hc)
  | Except.ok _, Except.error _ => isFalse (by intro hc; cases hc)
  | Except.ok s₁, Except.ok s₂ =>
    if h : s₁ = s₂ then isTrue (by rw [h])
    else isFalse (by intro hc; cases hc; exact h rfl)

/-- Modelled from the spec: filter semantics — a region filter that is
absent or GLOBAL imposes no region restriction, any other region value
restricts to exactly that region, and a given game mode restricts to it. -/
def specFilterMatches (region : Option Region) (gameMode : Option GameMode)
    (q : Player) : Prop :=
  (∀ r, region = some r → r ≠ Region.GLOBAL → q.region = r) ∧
  (∀ g, gameMode = some g → q.currentGameMode = g)

instance (region : Option Region) (gameMode : Option GameMode) (q : Player) :
    Decidable (specFilterMatches region gameMode q) := by
  unfold specFilterMatches
  infer_instance

/-- Region condition of the match predicate agrees with the spec-side
region semantics. -/
theorem regionCond_eq_decide (region : Option Region) (q : Player) :
    regionCond region q
      = decide (∀ r, region = some r → r ≠ Region.GLOBAL → q.region = r) := by
  cases region with
  | none =>
    exact (decide_eq_true (fun r h => by cases h)).symm
  | some r =>
    by_cases hr : r = Region.GLOBAL
    · subst hr
      rw [show regionCond (some Region.GLOBAL) q = true from by simp [regionCond]]
      exact (decide_eq_true (fun r' h hne => by cases h; exact absurd rfl hne)).symm
    · rw [show regionCond (some r) q = decide (q.region = r) from by simp [regionCond, hr]]
      rw [decide_eq_decide]
      constructor
      · intro h r' heq _
        cases heq
        exact h
      · intro h
        exact h r rfl hr

/-- Game-mode condition of the match predicate agrees with the spec-side
game-mode semantics. -/
theorem gameModeCond_eq_decide (gameMode : Option GameMode) (q : Player) :
    gameModeCond gameMode q
      = decide (∀ g, gameMode = some g → q.currentGameMode = g) := by
  cases gameMode with
  | none =>
    exact (decide_eq_true (fun g h => by cases h)).symm
  | some g =>
    rw [show gameModeCond (some g) q = decide (q.currentGameMode = g) from rfl]
    rw [decide_eq_decide]
    constructor
    · intro h g' heq
      cases heq
      exact h
    · intro h
      exact h g rfl

/-- The rank-count predicate of getPlayerRank agrees pointwise with the
spec-side predicate. -/
theorem rankPred_eq (p₁ : Player) (region : Option Region)
    (gameMode : Option GameMode) (q : Player) :
    (decide (p₁.currentScore < q.currentScore) && regionCond region q &&
        gameModeCond gameMode q)
      = decide (p₁.currentScore < q.currentScore ∧
          specFilterMatches region gameMode q) := by
  unfold specFilterMatches
  rw [Bool.decide_and, Bool.decide_and, regionCond_eq_decide,
    gameModeCond_eq_decide, Bool.and_assoc]

/-- Characterization of getPlayerRank: when the target is found, the result
is one plus the count of players strictly ahead under the filter. -/
theorem getPlayerRank_eq (db : List Player) (pid : String) (p : Player)
    (region : Option Region) (gameMode : Option GameMode)
    (h : db.find? (fun q => q.playerId = pid) = some p) :
    getPlayerRank db pid region gameMode
      = some (db.countP (fun q =>
          decide (p.currentScore < q.currentScore ∧
            specFilterMatches region gameMode q)) + 1) := by
  unfold getPlayerRank findPlayer
  rw [h]
  dsimp only
  have hfun : (fun q => decide (p.currentScore < q.currentScore) &&
        regionCond region q && gameModeCond gameMode q)
      = fun q => decide (p.currentScore < q.currentScore ∧
          specFilterMatches region gameMode q) :=
    funext fun q => rankPred_eq p region gameMode q
  rw [hfun, List.countP_eq_length_filter]

/-! ## C1 -/

/-- Fixture for C1: a freshly created player, no games yet. -/
def c1Player : Player :=
  { playerId := "p-1", username := "alice", region := Region.NA, currentScore := 0,
    totalGamesPlayed := 0, averageScore := 0, bestScore := 0,
    currentGameMode := GameMode.classic, isOnline := false, lastActiveAt := 0 }

/-- C1: the score-update operation updatePlayerScore goes through
findOneAndUpdate and therefore skips the pre-save middleware: after raising
the score of a fresh player to 100, the stored record has bestScore 0 (below
currentScore 100) and averageScore 0, while running the pre-save hook on the
same record would have re-established bestScore = 100 and
averageScore = round(100 / max(1,1)) = 100 as the claim demands. -/
theorem C1_updatePlayerScore_bypasses_derived_fields :
    (updatePlayerScoreDoc c1Player 100 none 1).currentScore = 100 ∧
    (updatePlayerScoreDoc c1Player 100 none 1).totalGamesPlayed = 1 ∧
    (updatePlayerScoreDoc c1Player 100 none 1).bestScore = 0 ∧
    (updatePlayerScoreDoc c1Player 100 none 1).averageScore = 0 ∧
    ¬ ((updatePlayerScoreDoc c1Player 100 none 1).currentScore ≤
        (updatePlayerScoreDoc c1Player 100 none 1).bestScore) ∧
    (playerPreSave (updatePlayerScoreDoc c1Player 100 none 1)).bestScore = 100 ∧
    (playerPreSave (updatePlayerScoreDoc c1Player 100 none 1)).averageScore = 100 := by
  refine ⟨rfl, rfl, rfl, rfl, by decide, ?_, ?_⟩
  · norm_num [playerPreSave, updatePlayerScoreDoc, c1Player, jsRound]
  · norm_num [playerPreSave, updatePlayerScoreDoc, c1Player, jsRound]

/-! ## C2 -/

/-- C2: for every found player, getPlayerRank returns one plus the number of
players whose currentScore is strictly greater under the (region, gameMode)
filter, and two found players with equal currentScore obtain the same rank
under the same filter. -/
theorem C2_rank_is_one_plus_strictly_greater_count (db : List Player)
    (pid₁ pid₂ : String) (p₁ p₂ : Player) (region : Option Region)
    (gameMode : Option GameMode)
    (h₁ : db.find? (fun q => q.playerId = pid₁) = some p₁)
    (h₂ : db.find? (fun q => q.playerId = pid₂) = some p₂) :
    getPlayerRank db pid₁ region gameMode
      = some (db.countP (fun q =>
          decide (p₁.currentScore < q.currentScore ∧
            specFilterMatches region gameMode q)) + 1) ∧
    (p₁.currentScore = p₂.currentScore →
      getPlayerRank db pid₁ region gameMode
        = getPlayerRank db pid₂ region gameMode) := by
  refine ⟨getPlayerRank_eq db pid₁ p₁ region gameMode h₁, fun hs => ?_⟩
  rw [getPlayerRank_eq db pid₁ p₁ region gameMode h₁,
    getPlayerRank_eq db pid₂ p₂ region gameMode h₂, hs]

/-- Fixture for the C2 witness: two players tied at 1000 and one at 500. -/
def c2Db : List Player :=
  [{ playerId := "a", username := "a", region := Region.NA, currentScore := 1000,
     totalGamesPlayed := 1, averageScore := 1000, bestScore := 1000,
     currentGameMode := GameMode.classic, isOnline := true, lastActiveAt := 0 },
   { playerId := "b", username := "b", region := Region.NA, currentScore := 1000,
     totalGamesPlayed := 1, averageScore := 1000, bestScore := 1000,
     currentGameMode := GameMode.classic, isOnline := true, lastActiveAt := 0 },
   { playerId := "c", username := "c", region := Region.NA, currentScore := 500,
     totalGamesPlayed := 1, averageScore := 500, bestScore := 500,
     currentGameMode := GameMode.classic, isOnline := true, lastActiveAt := 0 }]

/-- Witness for C2: the two players tied at 1000 report the same rank, and
that rank is 1. -/
theorem C2_rank_is_one_plus_strictly_greater_count_witness :
    getPlayerRank c2Db "a" none none = getPlayerRank c2Db "b" none none ∧
    getPlayerRank c2Db "a" none none = some 1 :=
  ⟨(C2_rank_is_one_plus_strictly_greater_count c2Db "a" "b" (c2Db.get ⟨0, by decide⟩)
      (c2Db.get ⟨1, by decide⟩) none none (by decide) (by decide)).2 (by decide),
   by decide⟩

/-! ## C3 -/

/-- C3: a region filter of GLOBAL behaves exactly like no region filter for
both getLeaderboard and getPlayerRank;  any other region value restricts the
leaderboard to exactly that region;  and a GLOBAL-tagged player meeting the
remaining conditions is never excluded from the matched set of a
region=GLOBAL query. -/
theorem C3_global_region_unrestricted (db : List Player) (limit skip : ℕ)
    (gameMode : Option GameMode) (onlineOnly : Bool) (pid : String) :
    getLeaderboard db limit skip (some Region.GLOBAL) gameMode onlineOnly
      = getLeaderboard db limit skip none gameMode onlineOnly ∧
    getPlayerRank db pid (some Region.GLOBAL) gameMode
      = getPlayerRank db pid none gameMode ∧
    (∀ r : Region, r ≠ Region.GLOBAL →
      ∀ q ∈ getLeaderboard db limit skip (some r) gameMode onlineOnly,
        q.region = r) ∧
    (∀ q ∈ db, q.region = Region.GLOBAL → gameModeCond gameMode q = true →
      (onlineOnly = true → q.isOnline = true) →
      q ∈ db.filter (leaderboardMatches (some Region.GLOBAL) gameMode onlineOnly)) := by
  have hrc : regionCond (some Region.GLOBAL) = regionCond none :=
    funext fun q => by simp [regionCond]
  have hlm : leaderboardMatches (some Region.GLOBAL) gameMode onlineOnly
      = leaderboardMatches none gameMode onlineOnly := by
    funext q
    unfold leaderboardMatches
    rw [hrc]
  refine ⟨?_, ?_, ?_, ?_⟩
  · unfold getLeaderboard
    rw [hlm]
  · unfold getPlayerRank
    rw [hrc]
  · intro r hr q hq
    have h2 := List.mem_of_mem_drop (List.mem_of_mem_take hq)
    have h3 : q ∈ db.filter (leaderboardMatches (some r) gameMode onlineOnly) :=
      (List.mem_insertionSort lbOrder).mp h2
    have h4 := (List.mem_filter.mp h3).2
    simp only [leaderboardMatches, regionCond, if_neg hr, Bool.and_eq_true,
      decide_eq_true_eq] at h4
    exact h4.1.1
  · intro q hq hreg hgm honline
    refine List.mem_filter.mpr ⟨hq, ?_⟩
    unfold leaderboardMatches regionCond
    cases onlineOnly with
    | true => simp [hgm, honline rfl]
    | false => simp [hgm]

/-- Fixture for the C3 witness: one GLOBAL-tagged player. -/
def c3Db : List Player :=
  [{ playerId := "g", username := "g", region := Region.GLOBAL, currentScore := 7,
     totalGamesPlayed := 0, averageScore := 0, bestScore := 7,
     currentGameMode := GameMode.blitz, isOnline := false, lastActiveAt := 0 }]

/-- Witness for C3: the GLOBAL-tagged player is matched by a region=GLOBAL
query. -/
theorem C3_global_region_unrestricted_witness :
    (c3Db.get ⟨0, by decide⟩)
      ∈ c3Db.filter (leaderboardMatches (some Region.GLOBAL) none false) :=
  (C3_global_region_unrestricted c3Db 50 0 none false "g").2.2.2
    (c3Db.get ⟨0, by decide⟩) (by decide) rfl (by decide) (by decide)

/-! ## C4 -/

/-- Fixture for the C4 counterexample: an active session with an inactive
participant holding the middle score. -/
def c4Session : GameSession :=
  { sessionId := "s-4", players := [⟨"a", "a", 0, 10, none, true⟩,
      ⟨"b", "b", 0, 50, none, false⟩],
    gameMode := GameMode.classic, region := Region.NA,
    status := SessionStatus.active, maxPlayers := 4,
    startedAt := some 0, endedAt := none, duration := none,
    realTimeEvents := [] }

/-- C4 counterexample: endSession ranks every participant, inactive ones
included, so the single active participant of this session receives
position 2 — the positions of the K = 1 active participants are not 1..K. -/
theorem C4_active_positions_not_contiguous :
    ((endSession c4Session 100).map (fun s =>
        s.players.map (fun p => (p.playerId, p.position, p.isActive))))
      = some [("a", some 2, true), ("b", some 1, false)] ∧
    ((endSession c4Session 100).map (fun s =>
        (s.players.filter (fun p => p.isActive)).map (fun p => p.position)))
      = some [some 2] := by
  constructor <;> rfl

/-- setPosition rewrites no identity: the participant ids are unchanged. -/
theorem setPosition_map_playerId (pid : String) (pos : ℕ)
    (l : List SessionPlayer) :
    (setPosition pid pos l).map (fun p => p.playerId)
      = l.map (fun p => p.playerId) := by
  induction l with
  | nil => rfl
  | cons p ps ih =>
    unfold setPosition
    split
    · simp
    · simp [ih]

/-- With pairwise-distinct participant ids, setPosition acts as a pointwise
update of the matching entry. -/
theorem setPosition_eq_map (pid : String) (pos : ℕ) (l : List SessionPlayer)
    (hnd : (l.map (fun p => p.playerId)).Nodup) :
    setPosition pid pos l
      = l.map (fun p =>
          if p.playerId = pid then { p with position := some pos } else p) := by
  induction l with
  | nil => rfl
  | cons p ps ih =>
    rw [List.map_cons] at hnd
    have hhead := (List.nodup_cons.mp hnd).1
    have htail := (List.nodup_cons.mp hnd).2
    unfold setPosition
    by_cases hp : p.playerId = pid
    · rw [if_pos hp, List.map_cons, if_pos hp]
      have hrest : ∀ q ∈ ps,
          (if q.playerId = pid then { q with position := some pos } else q) = q := by
        intro q hq
        rw [if_neg]
        intro hqp
        exact hhead (hp ▸ hqp ▸ List.mem_map_of_mem (fun p => p.playerId) hq)
      rw [List.map_congr_left hrest]
      simp
    · rw [if_neg hp, List.map_cons, if_neg hp, ih htail]

/-- With pairwise-distinct ids on both lists, the position-assignment loop
of endSession writes into each original entry one plus the index of its id
in the sorted copy (offset by the running index k). -/
theorem assignPositions_eq_map (sorted : List SessionPlayer) :
    ∀ (k : ℕ) (players : List SessionPlayer),
      (sorted.map (fun p => p.playerId)).Nodup →
      (players.map (fun p => p.playerId)).Nodup →
      assignPositions k sorted players
        = players.map (fun p =>
            if p.playerId ∈ sorted.map (fun q => q.playerId) then
              { p with position := some (k +
                  List.indexOf p.playerId (sorted.map (fun q => q.playerId)) + 1) }
            else p) := by
  induction sorted with
  | nil =>
    intro k players _ _
    simp [assignPositions]
  | cons q rest ih =>
    intro k players hs hp
    rw [List.map_cons] at hs
    have hqs := (List.nodup_cons.mp hs).1
    have hrest := (List.nodup_cons.mp hs).2
    unfold assignPositions
    rw [setPosition_eq_map q.playerId (k + 1) players hp]
    have hp' : (((players.map (fun p =>
        if p.playerId = q.playerId then { p with position := some (k + 1) }
        else p)).map (fun p => p.playerId))).Nodup := by
      rw [List.map_map]
      have hcomp : ((fun p => p.playerId) ∘ (fun p =>
          if p.playerId = q.playerId then { p with position := some (k + 1) }
          else p)) = fun (p : SessionPlayer) => p.playerId := by
        funext p
        by_cases h : p.playerId = q.playerId <;> simp [h]
      rw [hcomp]
      exact hp
    rw [ih (k + 1) _ hrest hp', List.map_map]
    apply List.map_congr_left
    intro p _
    simp only [Function.comp]
    by_cases hpq : p.playerId = q.playerId
    · rw [if_pos hpq]
      rw [if_neg (show ({ p with position := some (k + 1) } :
          SessionPlayer).playerId ∉ rest.map (fun q => q.playerId) from
            hpq ▸ hqs)]
      rw [List.map_cons, if_pos (by rw [hpq]; exact List.mem_cons_self _ _)]
      rw [hpq, List.indexOf_cons_self]
    · rw [if_neg hpq, List.map_cons]
      by_cases hmem : p.playerId ∈ rest.map (fun q => q.playerId)
      · rw [if_pos hmem, if_pos (List.mem_cons_of_mem _ hmem)]
        rw [List.indexOf_cons_ne _ (fun h => hpq h.symm)]
        have harith : k + 1 + List.indexOf p.playerId
              (rest.map (fun q => q.playerId)) + 1
            = k + (List.indexOf p.playerId
              (rest.map (fun q => q.playerId))).succ + 1 := by
          omega
        rw [harith]
      · rw [if_neg hmem, if_neg (by simp [hpq, hmem])]

/-- Mapping a duplicate-free list through its own index function enumerates
0,...,n-1. -/
theorem map_indexOf_self_eq_range {α : Type} [DecidableEq α] (B : List α)
    (h : B.Nodup) :
    B.map (fun a => List.indexOf a B) = List.range B.length := by
  induction B with
  | nil => rfl
  | cons b B ih =>
    have hb := (List.nodup_cons.mp h).1
    have hB := (List.nodup_cons.mp h).2
    rw [List.map_cons, List.indexOf_cons_self, List.length_cons,
      List.range_succ_eq_map]
    congr 1
    rw [← ih hB, List.map_map]
    apply List.map_congr_left
    intro a ha
    have hne : b ≠ a := fun hba => hb (hba ▸ ha)
    simp [List.indexOf_cons_ne _ hne, Function.comp]

/-- In a list whose participant ids are pairwise distinct, the id determines
the entry. -/
theorem eq_of_mem_of_map_nodup {l : List SessionPlayer}
    (hnd : (l.map (fun p => p.playerId)).Nodup) {x y : SessionPlayer}
    (hx : x ∈ l) (hy : y ∈ l) (hxy : x.playerId = y.playerId) : x = y := by
  induction l with
  | nil => cases hx
  | cons a t ih =>
    rw [List.map_cons] at hnd
    have hhead := (List.nodup_cons.mp hnd).1
    have htail := (List.nodup_cons.mp hnd).2
    rcases List.mem_cons.mp hx with rfl | hx'
    · rcases List.mem_cons.mp hy with rfl | hy'
      · rfl
      · exact absurd (hxy ▸ List.mem_map_of_mem (fun p => p.playerId) hy') hhead
    · rcases List.mem_cons.mp hy with rfl | hy'
      · exact absurd (hxy ▸ List.mem_map_of_mem (fun p => p.playerId) hx') hhead
      · exact ih htail hx' hy'

/-- Position assignment leaves identity, score and activity of every
participant unchanged. -/
theorem assignPositions_preserves_fields (players sorted : List SessionPlayer)
    (hs : (sorted.map (fun p => p.playerId)).Nodup)
    (hnd : (players.map (fun p => p.playerId)).Nodup)
    (hsub : ∀ p ∈ players, p.playerId ∈ sorted.map (fun q => q.playerId)) :
    (assignPositions 0 sorted players).map
        (fun p => (p.playerId, p.username, p.currentSessionScore, p.isActive))
      = players.map
        (fun p => (p.playerId, p.username, p.currentSessionScore, p.isActive)) := by
  rw [assignPositions_eq_map sorted 0 players hs hnd, List.map_map]
  apply List.map_congr_left
  intro p hp
  dsimp only [Function.comp]
  rw [if_pos (hsub p hp)]

/-- Every participant's assigned position is one plus the index of its id in
the sorted copy. -/
theorem assignPositions_map_position (players sorted : List SessionPlayer)
    (hs : (sorted.map (fun p => p.playerId)).Nodup)
    (hnd : (players.map (fun p => p.playerId)).Nodup)
    (hsub : ∀ p ∈ players, p.playerId ∈ sorted.map (fun q => q.playerId)) :
    (assignPositions 0 sorted players).map (fun p => p.position)
      = players.map (fun p => some (
          List.indexOf p.playerId (sorted.map (fun q => q.playerId)) + 1)) := by
  rw [assignPositions_eq_map sorted 0 players hs hnd, List.map_map]
  apply List.map_congr_left
  intro p hp
  dsimp only [Function.comp]
  rw [if_pos (hsub p hp)]
  simp

/-- When the sorted copy is a permutation of the participants and the ids
are pairwise distinct, the assigned positions are a permutation of
1,...,N. -/
theorem assignPositions_positions_perm (players sorted : List SessionPlayer)
    (hperm : sorted.Perm players)
    (hnd : (players.map (fun p => p.playerId)).Nodup) :
    ((assignPositions 0 sorted players).map (fun p => p.position)).Perm
      ((List.range players.length).map (fun i => some (i + 1))) := by
  have hBA := hperm.map (fun p => p.playerId)
  have hBnd : (sorted.map (fun p => p.playerId)).Nodup := hBA.nodup_iff.mpr hnd
  have hsub : ∀ p ∈ players, p.playerId ∈ sorted.map (fun q => q.playerId) :=
    fun p hp => hBA.mem_iff.mpr (List.mem_map_of_mem _ hp)
  rw [assignPositions_map_position players sorted hBnd hnd hsub]
  have h1 : players.map (fun p => some (
        List.indexOf p.playerId (sorted.map (fun q => q.playerId)) + 1))
      = (players.map (fun p => p.playerId)).map (fun a => some (
          List.indexOf a (sorted.map (fun q => q.playerId)) + 1)) :=
    (List.map_map (fun a => some (
      List.indexOf a (sorted.map (fun q => q.playerId)) + 1))
      (fun (p : SessionPlayer) => p.playerId) players).symm
  rw [h1]
  refine (hBA.symm.map (fun a => some (
    List.indexOf a (sorted.map (fun q => q.playerId)) + 1))).trans ?_
  have h3 : (sorted.map (fun p => p.playerId)).map (fun a => some (
        List.indexOf a (sorted.map (fun q => q.playerId)) + 1))
      = ((sorted.map (fun p => p.playerId)).map (fun a =>
          List.indexOf a (sorted.map (fun q => q.playerId)))).map
            (fun i => some (i + 1)) :=
    (List.map_map (fun i => some (i + 1)) (fun a =>
      List.indexOf a (sorted.map (fun q => q.playerId)))
      (sorted.map (fun p => p.playerId))).symm
  rw [h3, map_indexOf_self_eq_range _ hBnd, List.length_map, hperm.length_eq]

/-- When the sorted copy is additionally sorted by descending in-session
score, a smaller assigned position never carries a smaller score. -/
theorem assignPositions_desc (players sorted : List SessionPlayer)
    (hperm : sorted.Perm players)
    (hnd : (players.map (fun p => p.playerId)).Nodup)
    (hsorted : List.Sorted scoreDesc sorted) :
    ∀ p ∈ assignPositions 0 sorted players,
      ∀ q ∈ assignPositions 0 sorted players,
      ∀ i j : ℕ, p.position = some i → q.position = some j → i ≤ j →
        q.currentSessionScore ≤ p.currentSessionScore := by
  have hBA := hperm.map (fun p => p.playerId)
  have hBnd : (sorted.map (fun p => p.playerId)).Nodup := hBA.nodup_iff.mpr hnd
  have hsub : ∀ p ∈ players, p.playerId ∈ sorted.map (fun q => q.playerId) :=
    fun p hp => hBA.mem_iff.mpr (List.mem_map_of_mem _ hp)
  intro p hp q hq i j hpi hqj hij
  rw [assignPositions_eq_map sorted 0 players hBnd hnd] at hp hq
  obtain ⟨p₀, hp₀, rfl⟩ := List.mem_map.mp hp
  obtain ⟨q₀, hq₀, rfl⟩ := List.mem_map.mp hq
  rw [if_pos (hsub p₀ hp₀)] at hpi
  rw [if_pos (hsub q₀ hq₀)] at hqj
  rw [if_pos (hsub p₀ hp₀), if_pos (hsub q₀ hq₀)]
  simp only [Option.some.injEq] at hpi hqj
  have hIdx : List.indexOf p₀.playerId (sorted.map (fun q => q.playerId))
      ≤ List.indexOf q₀.playerId (sorted.map (fun q => q.playerId)) := by
    omega
  have hplt := List.indexOf_lt_length.mpr (hsub p₀ hp₀)
  have hqlt := List.indexOf_lt_length.mpr (hsub q₀ hq₀)
  have hplt' : List.indexOf p₀.playerId (sorted.map (fun q => q.playerId))
      < sorted.length := by
    rw [List.length_map] at hplt
    exact hplt
  have hqlt' : List.indexOf q₀.playerId (sorted.map (fun q => q.playerId))
      < sorted.length := by
    rw [List.length_map] at hqlt
    exact hqlt
  have hgetp : sorted.get ⟨List.indexOf p₀.playerId
      (sorted.map (fun q => q.playerId)), hplt'⟩ = p₀ := by
    apply eq_of_mem_of_map_nodup hBnd (List.get_mem _ _ _)
      (hperm.mem_iff.mpr hp₀)
    have hg := List.indexOf_get (a := p₀.playerId)
      (l := sorted.map (fun q => q.playerId)) hplt
    rw [List.get_map] at hg
    exact hg
  have hgetq : sorted.get ⟨List.indexOf q₀.playerId
      (sorted.map (fun q => q.playerId)), hqlt'⟩ = q₀ := by
    apply eq_of_mem_of_map_nodup hBnd (List.get_mem _ _ _)
      (hperm.mem_iff.mpr hq₀)
    have hg := List.indexOf_get (a := q₀.playerId)
      (l := sorted.map (fun q => q.playerId)) hqlt
    rw [List.get_map] at hg
    exact hg
  have hrel := hsorted.rel_get_of_le (a := ⟨_, hplt'⟩) (b := ⟨_, hqlt'⟩)
    (Fin.mk_le_mk.mpr hIdx)
  rw [hgetp, hgetq] at hrel
  exact hrel

/-- C4 amended: on an active session whose participant ids are pairwise
distinct, endSession assigns the positions 1..N bijectively across ALL N
participants — inactive (left) participants included — ordered by
descending in-session score;  the K active participants therefore hold K
distinct positions inside 1..N, but not necessarily the contiguous block
1..K. -/
theorem C4_positions_bijective_over_all_participants (s : GameSession)
    (now : ℕ) (hactive : s.status = SessionStatus.active)
    (hnd : (s.players.map (fun p => p.playerId)).Nodup) :
    ∃ s', endSession s now = some s' ∧
      s'.players.map
          (fun p => (p.playerId, p.username, p.currentSessionScore, p.isActive))
        = s.players.map
          (fun p => (p.playerId, p.username, p.currentSessionScore, p.isActive)) ∧
      (s'.players.map (fun p => p.position)).Perm
        ((List.range s.players.length).map (fun i => some (i + 1))) ∧
      (∀ p ∈ s'.players, ∀ q ∈ s'.players, ∀ i j : ℕ,
        p.position = some i → q.position = some j → i ≤ j →
        q.currentSessionScore ≤ p.currentSessionScore) := by
  have hperm : (s.players.insertionSort scoreDesc).Perm s.players :=
    List.perm_insertionSort scoreDesc s.players
  have hBA := hperm.map (fun p => p.playerId)
  have hBnd : ((s.players.insertionSort scoreDesc).map
      (fun p => p.playerId)).Nodup := hBA.nodup_iff.mpr hnd
  have hsub : ∀ p ∈ s.players, p.playerId ∈
      (s.players.insertionSort scoreDesc).map (fun q => q.playerId) :=
    fun p hp => hBA.mem_iff.mpr (List.mem_map_of_mem _ hp)
  unfold endSession
  rw [if_pos hactive]
  refine ⟨_, rfl, ?_, ?_, ?_⟩
  · rw [sessionPreSave_players]
    exact assignPositions_preserves_fields s.players
      (s.players.insertionSort scoreDesc) hBnd hnd hsub
  · rw [sessionPreSave_players]
    exact assignPositions_positions_perm s.players
      (s.players.insertionSort scoreDesc) hperm hnd
  · rw [sessionPreSave_players]
    exact assignPositions_desc s.players (s.players.insertionSort scoreDesc)
      hperm hnd (List.sorted_insertionSort scoreDesc s.players)

/-- Fixture for the C4 witness: an active session with two active
participants. -/
def c4WitnessSession : GameSession :=
  { sessionId := "s-4w", players := [⟨"a", "a", 0, 5, none, true⟩,
      ⟨"b", "b", 0, 9, none, true⟩],
    gameMode := GameMode.classic, region := Region.NA,
    status := SessionStatus.active, maxPlayers := 4,
    startedAt := some 0, endedAt := none, duration := none,
    realTimeEvents := [] }

/-- Witness for C4: the amended theorem instantiated on a concrete active
session with distinct participant ids. -/
theorem C4_positions_bijective_over_all_participants_witness :
    ∃ s', endSession c4WitnessSession 50 = some s' ∧
      s'.players.map
          (fun p => (p.playerId, p.username, p.currentSessionScore, p.isActive))
        = c4WitnessSession.players.map
          (fun p => (p.playerId, p.username, p.currentSessionScore, p.isActive)) ∧
      (s'.players.map (fun p => p.position)).Perm
        ((List.range c4WitnessSession.players.length).map (fun i => some (i + 1))) ∧
      (∀ p ∈ s'.players, ∀ q ∈ s'.players, ∀ i j : ℕ,
        p.position = some i → q.position = some j → i ≤ j →
        q.currentSessionScore ≤ p.currentSessionScore) :=
  C4_positions_bijective_over_all_participants c4WitnessSession 50 rfl (by decide)

/-! ## C5 -/

/-- Fixture for C5: a waiting one-slot session already holding player a. -/
def c5Session : GameSession :=
  { sessionId := "s-5", players := [⟨"a", "a", 0, 0, none, true⟩],
    gameMode := GameMode.classic, region := Region.NA,
    status := SessionStatus.waiting, maxPlayers := 1,
    startedAt := none, endedAt := none, duration := none, realTimeEvents := [] }

/-- C5 counterexample: the session is waiting, player a is already a
participant and the participant count equals maxPlayers, yet joining a again
fails with Full instead of succeeding as a no-op — the capacity check runs
before the already-present check. -/
theorem C5_full_session_rejects_present_player :
    c5Session.status = SessionStatus.waiting ∧
    (c5Session.players.find? (fun p => p.playerId = "a")).isSome = true ∧
    c5Session.players.length = c5Session.maxPlayers ∧
    joinSession c5Session ⟨"a", "a", none⟩ 5 = Except.error SessionError.full := by
  decide

/-- C5 amended: join is an idempotent no-op for an already-present player
only while the participant count is below maxPlayers — the session is
returned unchanged, with no event appended and the status untouched;  when
the count has reached maxPlayers, join fails with Full even for a player
already in the session. -/
theorem C5_join_idempotent_below_capacity (s : GameSession) (pd : JoinPlayerData)
    (now : ℕ)
    (hstatus : s.status = SessionStatus.waiting ∨ s.status = SessionStatus.active) :
    (s.players.length < s.maxPlayers →
      (s.players.find? (fun p => p.playerId = pd.playerId)).isSome →
      joinSession s pd now = Except.ok s) ∧
    (s.maxPlayers ≤ s.players.length →
      joinSession s pd now = Except.error SessionError.full) := by
  constructor
  · intro hlt hfound
    unfold joinSession
    rw [if_neg (not_not_intro hstatus), if_neg (by omega), if_pos hfound]
  · intro hge
    unfold joinSession
    rw [if_neg (not_not_intro hstatus), if_pos hge]

/-- Fixture for the C5 witness: a waiting two-slot session holding player a. -/
def c5WitnessSession : GameSession :=
  { sessionId := "s-5w", players := [⟨"a", "a", 0, 0, none, true⟩],
    gameMode := GameMode.classic, region := Region.NA,
    status := SessionStatus.waiting, maxPlayers := 2,
    startedAt := none, endedAt := none, duration := none, realTimeEvents := [] }

/-- Witness for C5: re-joining player a into a waiting session with spare
capacity returns the session unchanged. -/
theorem C5_join_idempotent_below_capacity_witness :
    joinSession c5WitnessSession ⟨"a", "a", none⟩ 3 = Except.ok c5WitnessSession :=
  (C5_join_idempotent_below_capacity c5WitnessSession ⟨"a", "a", none⟩ 3
    (Or.inl rfl)).1 (by decide) (by decide)

/-! ## C6 -/

/-- Fixture for C6: a completed session whose single participant is still
marked active. -/
def c6Session : GameSession :=
  { sessionId := "s-6", players := [⟨"a", "a", 0, 10, some 1, true⟩],
    gameMode := GameMode.classic, region := Region.NA,
    status := SessionStatus.completed, maxPlayers := 4,
    startedAt := some 0, endedAt := some 50, duration := some 1,
    realTimeEvents := [] }

/-- C6 counterexample: removePlayer carries no status guard, so removing the
last active participant of a completed session changes its status to
abandoned and re-sets endedAt — completed is not terminal. -/
theorem C6_completed_session_becomes_abandoned :
    c6Session.status = SessionStatus.completed ∧
    (removePlayer c6Session "a" 60).status = SessionStatus.abandoned ∧
    (removePlayer c6Session "a" 60).endedAt = some 60 := by
  decide

/-- C6 amended: join, updateScore and end never touch a completed session —
their queries only match waiting or active sessions, so each fails — but
removePlayer applies to sessions of any status: on a completed session it
leaves the status completed or, when the last active participant is
dropped, moves it to abandoned. -/
theorem C6_completed_terminal_except_removePlayer (s : GameSession)
    (pd : JoinPlayerData) (pid : String) (score : ℤ) (delta : Option ℤ)
    (reason : Option String) (now : ℕ)
    (h : s.status = SessionStatus.completed) :
    joinSession s pd now = Except.error SessionError.notJoinable ∧
    updateSessionScore s pid score delta reason now = none ∧
    endSession s now = none ∧
    ((removePlayer s pid now).status = SessionStatus.completed ∨
      (removePlayer s pid now).status = SessionStatus.abandoned) := by
  refine ⟨?_, ?_, ?_, ?_⟩
  · unfold joinSession
    rw [if_pos]
    simp [h]
  · unfold updateSessionScore
    rw [if_neg]
    simp [h]
  · unfold endSession
    rw [if_neg]
    simp [h]
  · unfold removePlayer
    by_cases hf : (s.players.find? (fun p => p.playerId = pid)).isSome = true
    · rw [if_pos hf]
      simp only [sessionPreSave_status]
      split
      · right; rfl
      · left; exact h
    · rw [if_neg hf]
      simp only [sessionPreSave_status]
      left; exact h

/-- Fixture for the C6 witness: a completed session with one active and one
inactive participant. -/
def c6WitnessSession : GameSession :=
  { sessionId := "s-6w", players := [⟨"a", "a", 0, 10, some 1, true⟩,
      ⟨"b", "b", 0, 5, some 2, false⟩],
    gameMode := GameMode.classic, region := Region.NA,
    status := SessionStatus.completed, maxPlayers := 4,
    startedAt := some 0, endedAt := some 50, duration := some 1,
    realTimeEvents := [] }

/-- Witness for C6: on a concrete completed session, join, updateScore and
end all fail and removePlayer keeps the status in the completed/abandoned
pair. -/
theorem C6_completed_terminal_except_removePlayer_witness :
    joinSession c6WitnessSession ⟨"c", "c", none⟩ 70 =
      Except.error SessionError.notJoinable ∧
    updateSessionScore c6WitnessSession "b" 99 none none 70 = none ∧
    endSession c6WitnessSession 70 = none ∧
    ((removePlayer c6WitnessSession "b" 70).status = SessionStatus.completed ∨
      (removePlayer c6WitnessSession "b" 70).status = SessionStatus.abandoned) :=
  C6_completed_terminal_except_removePlayer c6WitnessSession ⟨"c", "c", none⟩
    "b" 99 none none 70 rfl

/-! ## C9 -/

/-- updatePlayerScoreDoc never changes the player id. -/
theorem updatePlayerScoreDoc_playerId (p : Player) (v : ℤ)
    (gm : Option GameMode) (now : ℕ) :
    (updatePlayerScoreDoc p v gm now).playerId = p.playerId := by
  unfold updatePlayerScoreDoc
  cases gm <;> rfl

/-- updatePlayerScoreDoc writes the new score into currentScore. -/
theorem updatePlayerScoreDoc_currentScore (p : Player) (v : ℤ)
    (gm : Option GameMode) (now : ℕ) :
    (updatePlayerScoreDoc p v gm now).currentScore = v := by
  unfold updatePlayerScoreDoc
  cases gm <;> rfl

/-- Updating one player's document leaves lookups of any other id
unchanged. -/
theorem findPlayer_updateDb_ne (pid pid' : String) (v : ℤ)
    (gm : Option GameMode) (now : ℕ) (db : List Player) (h : pid ≠ pid') :
    findPlayer pid (updatePlayerScoreDb pid' v gm now db).2
      = findPlayer pid db := by
  induction db with
  | nil => rfl
  | cons q qs ih =>
    unfold updatePlayerScoreDb
    by_cases hq : q.playerId = pid'
    · rw [if_pos hq]
      unfold findPlayer
      rw [List.find?_cons_of_neg _ (by
          simp only [updatePlayerScoreDoc_playerId, hq, decide_eq_true_eq]
          exact fun he => h he.symm),
        List.find?_cons_of_neg _ (by
          simp only [hq, decide_eq_true_eq]
          exact fun he => h he.symm)]
    · rw [if_neg hq]
      by_cases hqp : q.playerId = pid
      · unfold findPlayer
        rw [List.find?_cons_of_pos _ (by simp [hqp]),
          List.find?_cons_of_pos _ (by simp [hqp])]
      · unfold findPlayer
        rw [List.find?_cons_of_neg _ (by simp [hqp]),
          List.find?_cons_of_neg _ (by simp [hqp])]
        exact ih

/-- Updating a player's document makes the lookup of that id return the
updated document. -/
theorem findPlayer_updateDb_eq (pid : String) (v : ℤ) (gm : Option GameMode)
    (now : ℕ) (db : List Player) :
    findPlayer pid (updatePlayerScoreDb pid v gm now db).2
      = (findPlayer pid db).map (fun q => updatePlayerScoreDoc q v gm now) := by
  induction db with
  | nil => rfl
  | cons q qs ih =>
    unfold updatePlayerScoreDb
    by_cases hq : q.playerId = pid
    · rw [if_pos hq]
      unfold findPlayer
      rw [List.find?_cons_of_pos _ (by
          simp [updatePlayerScoreDoc_playerId, hq]),
        List.find?_cons_of_pos _ (by simp [hq])]
      rfl
    · rw [if_neg hq]
      unfold findPlayer
      rw [List.find?_cons_of_neg _ (by simp [hq]),
        List.find?_cons_of_neg _ (by simp [hq])]
      exact ih

/-- The write-back loop leaves the record of a player that is no session
participant unchanged. -/
theorem findPlayer_writeBack_not_mem (total : ℕ) (gm : GameMode) (now : ℕ)
    (pid : String) :
    ∀ (ps : List SessionPlayer) (db : List Player),
      pid ∉ ps.map (fun p => p.playerId) →
      findPlayer pid (endRouteWriteBack ps total gm db now)
        = findPlayer pid db := by
  intro ps
  induction ps with
  | nil => intro db _; rfl
  | cons a ps ih =>
    intro db h
    rw [List.map_cons] at h
    have h1 : pid ≠ a.playerId := fun he => h (he ▸ List.mem_cons_self _ _)
    have h2 : pid ∉ ps.map (fun p => p.playerId) :=
      fun hm => h (List.mem_cons_of_mem _ hm)
    have hrw : endRouteWriteBack (a :: ps) total gm db now
        = endRouteWriteBack ps total gm
            (if a.isActive then (updatePlayerScoreDb a.playerId
              (a.currentSessionScore +
                calculatePositionBonus (a.position.getD 0) total)
              (some gm) now db).2 else db) now := by
      unfold endRouteWriteBack
      rw [List.foldl_cons]
    rw [hrw]
    by_cases ha : a.isActive
    · rw [if_pos ha, ih _ h2]
      exact findPlayer_updateDb_ne pid a.playerId _ (some gm) now db h1
    · rw [if_neg ha]
      exact ih db h2

/-- Core of C9: for an active participant of a session with distinct
participant ids, the write-back loop updates exactly that player's durable
record with its in-session score plus the positional bonus. -/
theorem findPlayer_writeBack_active (total : ℕ) (gm : GameMode) (now : ℕ)
    (p : SessionPlayer) (hact : p.isActive = true) :
    ∀ (ps : List SessionPlayer) (db : List Player),
      p ∈ ps → (ps.map (fun q => q.playerId)).Nodup →
      findPlayer p.playerId (endRouteWriteBack ps total gm db now)
        = (findPlayer p.playerId db).map (fun q => updatePlayerScoreDoc q
            (p.currentSessionScore +
              calculatePositionBonus (p.position.getD 0) total)
            (some gm) now) := by
  intro ps
  induction ps with
  | nil => intro db hmem _; cases hmem
  | cons a ps ih =>
    intro db hmem hnd
    rw [List.map_cons] at hnd
    have hhead := (List.nodup_cons.mp hnd).1
    have htail := (List.nodup_cons.mp hnd).2
    have hrw : endRouteWriteBack (a :: ps) total gm db now
        = endRouteWriteBack ps total gm
            (if a.isActive then (updatePlayerScoreDb a.playerId
              (a.currentSessionScore +
                calculatePositionBonus (a.position.getD 0) total)
              (some gm) now db).2 else db) now := by
      unfold endRouteWriteBack
      rw [List.foldl_cons]
    rw [hrw]
    rcases List.mem_cons.mp hmem with rfl | hmem'
    · rw [if_pos hact,
        findPlayer_writeBack_not_mem total gm now p.playerId ps _ hhead]
      exact findPlayer_updateDb_eq p.playerId _ (some gm) now db
    · have hne : p.playerId ≠ a.playerId := by
        intro he
        exact hhead (he ▸ List.mem_map_of_mem (fun q => q.playerId) hmem')
      by_cases ha : a.isActive
      · rw [if_pos ha, ih _ hmem' htail]
        rw [findPlayer_updateDb_ne p.playerId a.playerId _ (some gm) now db hne]
      · rw [if_neg ha]
        exact ih db hmem' htail

/-- C9: the code's positional bonus coincides with the spec formula and is
zero below two participants, and the end route writes back, for every
active participant of a session with distinct participant ids, exactly the
in-session score plus that bonus into the durable currentScore. -/
theorem C9_position_bonus_write_back (ps : List SessionPlayer)
    (gm : GameMode) (db : List Player) (now : ℕ) (p : SessionPlayer)
    (pos : ℕ) (q₀ : Player)
    (hmem : p ∈ ps) (hact : p.isActive = true) (hpos : p.position = some pos)
    (hnd : (ps.map (fun q => q.playerId)).Nodup)
    (hdb : findPlayer p.playerId db = some q₀) :
    calculatePositionBonus pos ps.length = specPositionBonus pos ps.length ∧
    (ps.length < 2 → calculatePositionBonus pos ps.length = 0) ∧
    findPlayer p.playerId (endRouteWriteBack ps ps.length gm db now)
      = some (updatePlayerScoreDoc q₀
          (p.currentSessionScore + specPositionBonus pos ps.length)
          (some gm) now) ∧
    (∀ q', findPlayer p.playerId (endRouteWriteBack ps ps.length gm db now)
        = some q' →
      q'.currentScore = p.currentSessionScore + specPositionBonus pos ps.length) := by
  have hb : ∀ a b : ℕ, calculatePositionBonus a b = specPositionBonus a b := by
    intro a b
    unfold calculatePositionBonus specPositionBonus
    split
    · rfl
    · rw [mul_div_assoc]
  have hfind : findPlayer p.playerId (endRouteWriteBack ps ps.length gm db now)
      = some (updatePlayerScoreDoc q₀
          (p.currentSessionScore + specPositionBonus pos ps.length)
          (some gm) now) := by
    rw [findPlayer_writeBack_active ps.length gm now p hact ps db hmem hnd,
      hdb, hpos]
    simp only [Option.map_some', Option.getD_some, hb pos ps.length]
  refine ⟨hb pos ps.length, fun h2 => ?_, hfind, fun q' hq' => ?_⟩
  · unfold calculatePositionBonus
    rw [if_pos h2]
  · rw [hfind] at hq'
    cases hq'
    rw [updatePlayerScoreDoc_currentScore]

/-- Fixture for the C9 witness: a two-participant scoreboard. -/
def c9Players : List SessionPlayer :=
  [⟨"a", "a", 0, 40, some 1, true⟩, ⟨"b", "b", 0, 20, some 2, true⟩]

/-- Fixture for the C9 witness: the durable records of both participants. -/
def c9Db : List Player :=
  [{ playerId := "a", username := "a", region := Region.NA, currentScore := 10,
     totalGamesPlayed := 1, averageScore := 10, bestScore := 10,
     currentGameMode := GameMode.classic, isOnline := true, lastActiveAt := 0 },
   { playerId := "b", username := "b", region := Region.NA, currentScore := 3,
     totalGamesPlayed := 1, averageScore := 3, bestScore := 3,
     currentGameMode := GameMode.classic, isOnline := true, lastActiveAt := 0 }]

/-- Witness for C9: after the write-back for the two-participant session,
the winner's durable record carries 40 + bonus for position 1 of 2. -/
theorem C9_position_bonus_write_back_witness :
    findPlayer "a" (endRouteWriteBack c9Players 2 GameMode.classic c9Db 7)
      = some (updatePlayerScoreDoc (c9Db.get ⟨0, by decide⟩)
          (40 + specPositionBonus 1 2) (some GameMode.classic) 7) :=
  (C9_position_bonus_write_back c9Players GameMode.classic c9Db 7
    (c9Players.get ⟨0, by decide⟩) 1 (c9Db.get ⟨0, by decide⟩)
    (List.get_mem _ _ _) rfl rfl (by decide) rfl).2.2.1

end Leaderboard
